import Mathlib

/-!
Shallow embedding of the scoring and aggregation pipeline of
`src/main.py` from the defense_news_feed repository: the tiered keyword
scanner (`scan_keywords`), the composite-score combiner
(`compute_composite_score`), the SAM.gov opportunity fetch/deduplication
loop (`fetch_sam_opportunities`), the two scoring loops of the main
script, and the run-log aggregation (`save_run_log`).

Python floats are modelled as rationals.  Python's built-in `round`
(round half to even) is modelled by `pyRound`; `round(x, 1)` by
`roundTo1`.  Python regular-expression search for the pattern
`\b<keyword>\b` with `re.IGNORECASE` is modelled by `searchB` over the
character list of the string.
-/

/-- Python's `round` on a rational: nearest integer, ties to even. -/
def pyRound (q : ℚ) : ℤ :=
  if q - ⌊q⌋ < 1/2 then ⌊q⌋
  else if 1/2 < q - ⌊q⌋ then ⌊q⌋ + 1
  else if ⌊q⌋ % 2 = 0 then ⌊q⌋ else ⌊q⌋ + 1

/-- Python's `round(x, 1)`: round to one decimal place. -/
def roundTo1 (q : ℚ) : ℚ := (pyRound (q * 10) : ℚ) / 10

lemma le_pyRound (q : ℚ) : ⌊q⌋ ≤ pyRound q := by
  unfold pyRound; split_ifs <;> omega

lemma pyRound_le_floor_add_one (q : ℚ) : pyRound q ≤ ⌊q⌋ + 1 := by
  unfold pyRound; split_ifs <;> omega

lemma pyRound_le_of_le {q : ℚ} {n : ℤ} (h : q ≤ (n : ℚ)) : pyRound q ≤ n := by
  have hfn : ⌊q⌋ ≤ n := by
    have h1 : ⌊q⌋ ≤ ⌊(n : ℚ)⌋ := Int.floor_mono h
    simpa using h1
  have hfl : (⌊q⌋ : ℚ) ≤ q := Int.floor_le q
  unfold pyRound
  split_ifs with h1 h2 h3
  · exact hfn
  · have hlt : (⌊q⌋ : ℚ) < (n : ℚ) := by linarith
    have : ⌊q⌋ < n := by exact_mod_cast hlt
    omega
  · exact hfn
  · have hge : (⌊q⌋ : ℚ) + 1/2 ≤ q := by linarith
    have hlt : (⌊q⌋ : ℚ) < (n : ℚ) := by linarith
    have : ⌊q⌋ < n := by exact_mod_cast hlt
    omega

lemma le_pyRound_of_le {q : ℚ} {n : ℤ} (h : (n : ℚ) ≤ q) : n ≤ pyRound q := by
  have h1 : n ≤ ⌊q⌋ := Int.le_floor.mpr h
  have h2 := le_pyRound q
  omega

lemma pyRound_mono {x y : ℚ} (h : x ≤ y) : pyRound x ≤ pyRound y := by
  rcases lt_or_le ⌊x⌋ ⌊y⌋ with hf | hf
  · have h1 := pyRound_le_floor_add_one x
    have h2 := le_pyRound y
    omega
  · have hfe : ⌊x⌋ = ⌊y⌋ := le_antisymm (Int.floor_mono h) hf
    have hfr : x - (⌊y⌋ : ℚ) ≤ y - (⌊y⌋ : ℚ) := by linarith
    unfold pyRound
    rw [hfe]
    split_ifs <;> first | omega | linarith

lemma roundTo1_nonneg {q : ℚ} (h : 0 ≤ q) : 0 ≤ roundTo1 q := by
  have h1 : (0 : ℤ) ≤ pyRound (q * 10) :=
    le_pyRound_of_le (by push_cast; linarith)
  unfold roundTo1
  have h2 : (0 : ℚ) ≤ (pyRound (q * 10) : ℚ) := by exact_mod_cast h1
  linarith

lemma roundTo1_le_ten {q : ℚ} (h : q ≤ 10) : roundTo1 q ≤ 10 := by
  have h1 : pyRound (q * 10) ≤ (100 : ℤ) :=
    pyRound_le_of_le (by push_cast; linarith)
  unfold roundTo1
  have h2 : (pyRound (q * 10) : ℚ) ≤ (100 : ℚ) := by exact_mod_cast h1
  linarith

/-- Embedding of `compute_composite_score` (src/main.py):
`return min(10, round((llm_score * 0.6) + (keyword_score * 0.4)))`. -/
def compute_composite_score (llm_score : ℤ) (keyword_score : ℚ) : ℤ :=
  min 10 (pyRound ((llm_score : ℚ) * 0.6 + keyword_score * 0.4))

/-- Spec-side combiner, written from the spec's words:
`composite = round(llm_score × 0.6 + keyword_score × 0.4)`, clamped to a
maximum of 10, i.e. `min(10, round(llm_score × 0.6 + keyword_score × 0.4))`. -/
def composite_spec (llm_score : ℤ) (keyword_score : ℚ) : ℤ :=
  min 10 (pyRound ((llm_score : ℚ) * 0.6 + keyword_score * 0.4))

lemma compute_composite_nonneg {llm : ℤ} {ks : ℚ} (h0 : 0 ≤ llm) (k0 : 0 ≤ ks) :
    0 ≤ compute_composite_score llm ks := by
  have hq : (0 : ℚ) ≤ (llm : ℚ) * 0.6 + ks * 0.4 := by
    have hl : (0 : ℚ) ≤ (llm : ℚ) := by exact_mod_cast h0
    linarith
  have h1 : (0 : ℤ) ≤ pyRound ((llm : ℚ) * 0.6 + ks * 0.4) :=
    le_pyRound_of_le (by exact_mod_cast hq)
  exact le_min (by norm_num) h1

lemma compute_composite_le_ten (llm : ℤ) (ks : ℚ) :
    compute_composite_score llm ks ≤ 10 :=
  min_le_left _ _

lemma compute_composite_mono_left {llm llm' : ℤ} (ks : ℚ) (h : llm ≤ llm') :
    compute_composite_score llm ks ≤ compute_composite_score llm' ks := by
  have hc : (llm : ℚ) ≤ (llm' : ℚ) := by exact_mod_cast h
  have hq : (llm : ℚ) * 0.6 + ks * 0.4 ≤ (llm' : ℚ) * 0.6 + ks * 0.4 := by linarith
  exact min_le_min (le_refl 10) (pyRound_mono hq)

lemma compute_composite_mono_right (llm : ℤ) {ks ks' : ℚ} (h : ks ≤ ks') :
    compute_composite_score llm ks ≤ compute_composite_score llm ks' := by
  have hq : (llm : ℚ) * 0.6 + ks * 0.4 ≤ (llm : ℚ) * 0.6 + ks' * 0.4 := by linarith
  exact min_le_min (le_refl 10) (pyRound_mono hq)

/-- C1: Floor invariant of the score combiner: for every integer `llm_score`
in `[0,10]`, `compute_composite_score llm_score 10` is at least 4; in
particular `compute_composite_score 0 10 = 4` and
`compute_composite_score 10 0 = 6`. -/
theorem claim_C1_combiner_floor (llm : ℤ) (h0 : 0 ≤ llm) (h1 : llm ≤ 10) :
    4 ≤ compute_composite_score llm 10
    ∧ compute_composite_score 0 10 = 4
    ∧ compute_composite_score 10 0 = 6 := by
  refine ⟨?_, ?_, ?_⟩
  · have hl : (0 : ℚ) ≤ (llm : ℚ) := by exact_mod_cast h0
    have hq : ((4 : ℤ) : ℚ) ≤ (llm : ℚ) * 0.6 + 10 * 0.4 := by push_cast; linarith
    have h4 : (4 : ℤ) ≤ pyRound ((llm : ℚ) * 0.6 + 10 * 0.4) := le_pyRound_of_le hq
    exact le_min (by norm_num) h4
  · norm_num [compute_composite_score, pyRound]
  · norm_num [compute_composite_score, pyRound]

theorem claim_C1_combiner_floor_witness :
    4 ≤ compute_composite_score 0 10
    ∧ compute_composite_score 0 10 = 4
    ∧ compute_composite_score 10 0 = 6 :=
  claim_C1_combiner_floor 0 (by norm_num) (by norm_num)

/-- C2: For every integer `llm_score` in `[0,10]` and `keyword_score` in
`[0,10]`, the score combiner returns
`round(llm_score × 0.6 + keyword_score × 0.4)` clamped to a maximum of 10,
i.e. it agrees with `composite_spec`. -/
theorem claim_C2_combiner_formula (llm : ℤ) (ks : ℚ) (h0 : 0 ≤ llm)
    (h1 : llm ≤ 10) (k0 : 0 ≤ ks) (k1 : ks ≤ 10) :
    compute_composite_score llm ks = composite_spec llm ks := rfl

theorem claim_C2_combiner_formula_witness :
    compute_composite_score 7 (33/10) = composite_spec 7 (33/10) :=
  claim_C2_combiner_formula 7 (33/10) (by norm_num) (by norm_num)
    (by norm_num) (by norm_num)

/-- C9: The score combiner is monotonic non-decreasing in each of its two
arguments (for `llm_score` and `keyword_score` within `[0,10]`) and always
returns an integer in `[0,10]` on such inputs. -/
theorem claim_C9_combiner_monotone :
    (∀ llm llm' : ℤ, ∀ ks : ℚ, 0 ≤ llm → llm' ≤ 10 → 0 ≤ ks → ks ≤ 10 →
      llm ≤ llm' →
      compute_composite_score llm ks ≤ compute_composite_score llm' ks)
    ∧ (∀ llm : ℤ, ∀ ks ks' : ℚ, 0 ≤ llm → llm ≤ 10 → 0 ≤ ks → ks' ≤ 10 →
      ks ≤ ks' →
      compute_composite_score llm ks ≤ compute_composite_score llm ks')
    ∧ (∀ llm : ℤ, ∀ ks : ℚ, 0 ≤ llm → llm ≤ 10 → 0 ≤ ks → ks ≤ 10 →
      0 ≤ compute_composite_score llm ks ∧ compute_composite_score llm ks ≤ 10) := by
  refine ⟨?_, ?_, ?_⟩
  · intro llm llm' ks _ _ _ _ h
    exact compute_composite_mono_left ks h
  · intro llm ks ks' _ _ _ _ h
    exact compute_composite_mono_right llm h
  · intro llm ks h0 _ k0 _
    exact ⟨compute_composite_nonneg h0 k0, compute_composite_le_ten llm ks⟩

theorem claim_C9_combiner_monotone_witness :
    compute_composite_score 2 3 ≤ compute_composite_score 8 3
    ∧ (0 ≤ compute_composite_score 2 3 ∧ compute_composite_score 2 3 ≤ 10) :=
  ⟨claim_C9_combiner_monotone.1 2 8 3 (by norm_num) (by norm_num) (by norm_num)
      (by norm_num) (by norm_num),
    claim_C9_combiner_monotone.2.2 2 3 (by norm_num) (by norm_num) (by norm_num)
      (by norm_num)⟩

/-!
## Keyword scanner

`scan_keywords` compiles, for each keyword of the tier table, the regex
`\b<keyword>\b` with `re.IGNORECASE` and searches the title first, then
the snippet.  The regex search is modelled by `searchB`: a case-insensitive
occurrence of the keyword delimited by word boundaries, where a word
character is an ASCII alphanumeric character or an underscore.
-/

def wordChar (c : Char) : Bool := c.isAlphanum || c == '_'

def optWord : Option Char → Bool
  | none => false
  | some c => wordChar c

def charMatches (a b : Char) : Bool := a.toLower == b.toLower

def prefixMatchCI : List Char → List Char → Bool
  | [], _ => true
  | _ :: _, [] => false
  | k :: ks, t :: ts => charMatches k t && prefixMatchCI ks ts

/-- `\b` of Python `re`: position `i` of `text` is a word boundary when
exactly one of the characters around it is a word character (positions
outside the text count as non-word). -/
def boundaryAt (text : List Char) (i : Nat) : Bool :=
  optWord (if i = 0 then none else text.get? (i - 1)) != optWord (text.get? i)

def matchAt (text kw : List Char) (i : Nat) : Bool :=
  boundaryAt text i && prefixMatchCI kw (text.drop i) && boundaryAt text (i + kw.length)

/-- Model of `re.compile(r"\b" + re.escape(keyword) + r"\b", re.IGNORECASE)`
followed by `.search(text)`, as a Boolean: does the whole-word,
case-insensitive pattern occur anywhere in `text`? -/
def searchB (kw text : String) : Bool :=
  (List.range (text.data.length + 1)).any (fun i => matchAt text.data kw.data i)

/-- `TITLE_MULTIPLIER = 2` (src/main.py): keyword matches in the title count
double. -/
def TITLE_MULTIPLIER : ℕ := 2

/-- `RELEVANCE_THRESHOLD = 4` (src/main.py). -/
def RELEVANCE_THRESHOLD : ℤ := 4

/-- One entry of the `matched_keywords` list built by `scan_keywords`:
`{"keyword": ..., "weight": ..., "location": ...}`. -/
structure MatchRecord where
  keyword : String
  weight : ℕ
  location : String
deriving DecidableEq

/-- The dict returned by `scan_keywords`. -/
structure KeywordScanResult where
  keyword_score : ℚ
  matched_keywords : List MatchRecord
deriving DecidableEq

/-- One iteration of the `for keyword, weight in KEYWORD_TIERS.items()` loop
of `scan_keywords`, accumulating `(raw_points, matched_keywords)`. -/
def scanStep (title snippet : String) (acc : ℕ × List MatchRecord)
    (kw : String × ℕ) : ℕ × List MatchRecord :=
  if searchB kw.1 title then
    (acc.1 + kw.2 * TITLE_MULTIPLIER, acc.2 ++ [⟨kw.1, kw.2, "title"⟩])
  else if searchB kw.1 snippet then
    (acc.1 + kw.2, acc.2 ++ [⟨kw.1, kw.2, "snippet"⟩])
  else acc

/-- The `raw_points` accumulator of `scan_keywords` at the end of the loop.
The tier table is passed explicitly (the source reads the module-level
`KEYWORD_TIERS`). -/
def raw_points (tiers : List (String × ℕ)) (title snippet : String) : ℕ :=
  (tiers.foldl (scanStep title snippet) (0, [])).1

/-- Embedding of `scan_keywords` (src/main.py):
`keyword_score = min(10, raw_points / 6 * 10)` then
`round(keyword_score, 1)`, together with the `matched_keywords` list. -/
def scan_keywords (tiers : List (String × ℕ)) (title snippet : String) :
    KeywordScanResult :=
  let r := tiers.foldl (scanStep title snippet) (0, [])
  { keyword_score := roundTo1 (min 10 ((r.1 : ℚ) / 6 * 10)),
    matched_keywords := r.2 }

/-- Per-keyword raw-point contribution, as the spec describes it:
`weight × 2` for a title match, `weight` for a snippet-only match,
`0` otherwise. -/
def kwContrib (title snippet : String) (kw : String × ℕ) : ℕ :=
  if searchB kw.1 title then kw.2 * 2
  else if searchB kw.1 snippet then kw.2
  else 0

/-- Per-keyword match record: `some` record exactly when the keyword
matches, the title taking precedence over the snippet. -/
def kwRecord (title snippet : String) (kw : String × ℕ) : Option MatchRecord :=
  if searchB kw.1 title then some ⟨kw.1, kw.2, "title"⟩
  else if searchB kw.1 snippet then some ⟨kw.1, kw.2, "snippet"⟩
  else none

lemma scan_foldl_eq (title snippet : String) (tiers : List (String × ℕ)) :
    ∀ acc : ℕ × List MatchRecord,
      tiers.foldl (scanStep title snippet) acc
        = (acc.1 + (tiers.map (kwContrib title snippet)).sum,
           acc.2 ++ tiers.filterMap (kwRecord title snippet)) := by
  induction tiers with
  | nil => intro acc; simp
  | cons kw rest ih =>
    intro acc
    rw [List.foldl_cons, ih]
    simp only [List.map_cons, List.sum_cons, List.filterMap_cons]
    by_cases h1 : searchB kw.1 title
    · simp only [scanStep, kwContrib, kwRecord, h1, if_true, TITLE_MULTIPLIER]
      refine Prod.ext ?_ ?_ <;> simp <;> omega
    · by_cases h2 : searchB kw.1 snippet
      · simp only [scanStep, kwContrib, kwRecord, h1, h2, if_true, if_false,
          Bool.false_eq_true]
        refine Prod.ext ?_ ?_ <;> simp <;> omega
      · simp only [scanStep, kwContrib, kwRecord, h1, h2, if_false,
          Bool.false_eq_true]
        refine Prod.ext ?_ ?_ <;> simp

/-- The module-level `KEYWORD_TIERS` table of src/main.py, in source order. -/
def KEYWORD_TIERS : List (String × ℕ) :=
  [("Anduril", 3), ("Jones Act", 3), ("Section 27", 3), ("Sealift", 3),
   ("Maritime Autonomy", 3), ("Dive-LD", 3), ("Ghost Shark", 3), ("Saronic", 3),
   ("Saildrone", 3), ("Shield AI", 3), ("Palantir", 3),
   ("Replicator Initiative", 3), ("Maritime Action Plan", 3), ("MAP", 3),
   ("USV", 3), ("UUV", 3), ("CCA", 3), ("MASC", 3), ("Lattice OS", 3),
   ("Hivemind", 3), ("Hedge Strategy", 3),
   ("MSC", 2), ("unmanned systems", 2), ("defense AI", 2),
   ("autonomous vessels", 2), ("Maritime Domain Awareness", 2), ("MDA", 2),
   ("Attritable", 2), ("Low-cost", 2), ("DIU", 2),
   ("Defense Innovation Unit", 2), ("Distributed Maritime Operations", 2),
   ("DMO", 2), ("Physical AI", 2), ("Autonomous Welding", 2), ("ISR", 2),
   ("Intelligence, Surveillance, Reconnaissance", 2),
   ("autonomous", 1), ("semi-autonomous", 1), ("naval", 1), ("Coast Guard", 1),
   ("shipbuilding", 1), ("shipyard", 1), ("readiness", 1), ("dual-use", 1),
   ("supply chain", 1)]

/-- C3: For every title, body and keyword tier table, `raw_points` is the sum
over keywords of `weight × 2` when the keyword matches in the title
(case-insensitively, whole-word) and `weight` when it matches only in the
body, and the returned `keyword_score` equals
`min(10, raw_points / 6 × 10)` rounded to one decimal place, which always
lies in `[0, 10]`. -/
theorem claim_C3_scanner_score (tiers : List (String × ℕ)) (title snippet : String) :
    raw_points tiers title snippet = (tiers.map (kwContrib title snippet)).sum
    ∧ (scan_keywords tiers title snippet).keyword_score
        = roundTo1 (min 10 ((raw_points tiers title snippet : ℚ) / 6 * 10))
    ∧ 0 ≤ (scan_keywords tiers title snippet).keyword_score
    ∧ (scan_keywords tiers title snippet).keyword_score ≤ 10 := by
  have hf := scan_foldl_eq title snippet tiers (0, [])
  have hmin0 : (0 : ℚ) ≤ min 10 ((raw_points tiers title snippet : ℚ) / 6 * 10) :=
    le_min (by norm_num) (by positivity)
  have hmin10 : min 10 ((raw_points tiers title snippet : ℚ) / 6 * 10) ≤ 10 :=
    min_le_left _ _
  refine ⟨?_, rfl, roundTo1_nonneg hmin0, roundTo1_le_ten hmin10⟩
  rw [raw_points, hf]
  simp

/-- C5 (amended): each matched keyword produces exactly one `MatchRecord`;
its `location` is `"title"` when the keyword matches in the title, and
`"snippet"` (the source's literal; the claim said `"body"`) when it matches
only in the snippet; the title is checked first, so a title match is never
also recorded for the snippet. -/
theorem claim_C5_match_records (tiers : List (String × ℕ)) (title snippet : String) :
    (scan_keywords tiers title snippet).matched_keywords
        = tiers.filterMap (kwRecord title snippet)
    ∧ ∀ r ∈ (scan_keywords tiers title snippet).matched_keywords,
        (r.location = "title" ∧ searchB r.keyword title = true)
        ∨ (r.location = "snippet" ∧ searchB r.keyword title = false
            ∧ searchB r.keyword snippet = true) := by
  have hf := scan_foldl_eq title snippet tiers (0, [])
  have h1 : (scan_keywords tiers title snippet).matched_keywords
      = tiers.filterMap (kwRecord title snippet) := by
    simp [scan_keywords, hf]
  refine ⟨h1, ?_⟩
  intro r hr
  rw [h1, List.mem_filterMap] at hr
  obtain ⟨kw, _, hrec⟩ := hr
  unfold kwRecord at hrec
  by_cases ht : searchB kw.1 title
  · rw [if_pos ht] at hrec
    cases hrec
    exact Or.inl ⟨rfl, ht⟩
  · rw [if_neg ht] at hrec
    by_cases hs : searchB kw.1 snippet
    · rw [if_pos hs] at hrec
      cases hrec
      exact Or.inr ⟨rfl, by simpa using ht, hs⟩
    · rw [if_neg hs] at hrec
      cases hrec

theorem claim_C5_match_records_witness :
    (MatchRecord.location ⟨"USV", 3, "title"⟩ = "title"
        ∧ searchB (MatchRecord.keyword ⟨"USV", 3, "title"⟩) "Anduril unveils new USV" = true)
    ∨ (MatchRecord.location ⟨"USV", 3, "title"⟩ = "snippet"
        ∧ searchB (MatchRecord.keyword ⟨"USV", 3, "title"⟩) "Anduril unveils new USV" = false
        ∧ searchB (MatchRecord.keyword ⟨"USV", 3, "title"⟩) "naval forces" = true) :=
  (claim_C5_match_records [("USV", 3)] "Anduril unveils new USV" "naval forces").2
    ⟨"USV", 3, "title"⟩ (by decide)

/-- C5 counterexample to the claim as stated: a keyword that matches only in
the body is recorded with the location string `"snippet"`, not `"body"` as
the claim asserts. -/
theorem claim_C5_location_string_counterexample :
    ((scan_keywords [("naval", 1)] "" "naval forces").matched_keywords.map
        MatchRecord.location) = ["snippet"]
    ∧ ("snippet" : String) ≠ "body" := by
  exact ⟨by decide, by decide⟩

/-!
## SAM.gov opportunity fetch and deduplication

`fetch_sam_opportunities` runs its searches in order; each search yields a
list of raw opportunity dicts (a failed search contributes nothing, i.e. an
empty list).  For each raw dict, `notice_id = opp.get("noticeId", "")`; ids
already in `seen_ids` are skipped, otherwise the id is recorded and a new
output dict is appended.  Raw dicts are modelled with their accessed keys
as optional fields.
-/

/-- A raw opportunity dict from a SAM.gov search, restricted to the keys the
code reads; a `none` field models an absent key. -/
structure RawOpp where
  noticeId : Option String
  title : Option String
  solicitationNumber : Option String
  naicsCode : Option String
  type : Option String
  responseDeadLine : Option String
deriving DecidableEq

/-- `opp.get("noticeId", "")`. -/
def rawId (o : RawOpp) : String := o.noticeId.getD ""

/-- The output dict appended by `fetch_sam_opportunities`. -/
structure Opp where
  title : String
  solicitationNumber : String
  naicsCode : String
  type : String
  responseDeadLine : String
  link : String
deriving DecidableEq

/-- The dict built from a raw opportunity in `fetch_sam_opportunities`,
with the source's `.get` defaults and the link format string. -/
def opp_of_raw (o : RawOpp) : Opp :=
  { title := o.title.getD "Untitled",
    solicitationNumber := o.solicitationNumber.getD "N/A",
    naicsCode := o.naicsCode.getD "N/A",
    type := o.type.getD "N/A",
    responseDeadLine := o.responseDeadLine.getD "N/A",
    link := "https://sam.gov/opp/" ++ rawId o ++ "/view" }

/-- One iteration of the inner `for opp in data.get("opportunitiesData", [])`
loop, carrying `(seen_ids, opportunities)`.  The Python set `seen_ids` is
modelled as the list of ids inserted so far (only membership is used). -/
def samStep (acc : List String × List Opp) (o : RawOpp) : List String × List Opp :=
  if rawId o ∈ acc.1 then acc
  else (rawId o :: acc.1, acc.2 ++ [opp_of_raw o])

/-- Embedding of `fetch_sam_opportunities` (src/main.py), abstracted over the
raw result set of each search (a failed search is an empty list). -/
def fetch_sam_opportunities (sets : List (List RawOpp)) : List Opp :=
  (sets.foldl (fun acc s => s.foldl samStep acc) ([], [])).2

/-- First-occurrence selection: the raw opportunities that survive
deduplication, given the ids already seen. -/
def dedupFirst : List String → List RawOpp → List RawOpp
  | _, [] => []
  | seen, o :: rest =>
    if rawId o ∈ seen then dedupFirst seen rest
    else o :: dedupFirst (rawId o :: seen) rest

lemma samStep_foldl (l : List RawOpp) :
    ∀ (seen : List String) (acc : List Opp),
      l.foldl samStep (seen, acc)
        = (((dedupFirst seen l).map rawId).reverse ++ seen,
           acc ++ (dedupFirst seen l).map opp_of_raw) := by
  induction l with
  | nil => intro seen acc; simp [dedupFirst]
  | cons o rest ih =>
    intro seen acc
    rw [List.foldl_cons]
    by_cases h : rawId o ∈ seen
    · have hstep : samStep (seen, acc) o = (seen, acc) := by simp [samStep, h]
      rw [hstep, ih, dedupFirst]
      simp [h]
    · have hstep : samStep (seen, acc) o
          = (rawId o :: seen, acc ++ [opp_of_raw o]) := by simp [samStep, h]
      rw [hstep, ih, dedupFirst]
      simp [h]

lemma fetch_sam_eq_dedupFirst (sets : List (List RawOpp)) :
    fetch_sam_opportunities sets = (dedupFirst [] sets.flatten).map opp_of_raw := by
  unfold fetch_sam_opportunities
  rw [← List.foldl_flatten samStep ([], []) sets, samStep_foldl]
  simp

lemma dedupFirst_sublist : ∀ (seen : List String) (l : List RawOpp),
    (dedupFirst seen l).Sublist l := by
  intro seen l
  induction l generalizing seen with
  | nil => simp [dedupFirst]
  | cons o rest ih =>
    rw [dedupFirst]
    by_cases h : rawId o ∈ seen
    · simp only [h, if_true]
      exact (ih seen).cons o
    · simp only [h, if_false]
      exact (ih (rawId o :: seen)).cons₂ o

lemma dedupFirst_not_mem_seen : ∀ (seen : List String) (l : List RawOpp),
    ∀ o ∈ dedupFirst seen l, rawId o ∉ seen := by
  intro seen l
  induction l generalizing seen with
  | nil => simp [dedupFirst]
  | cons o rest ih =>
    rw [dedupFirst]
    by_cases h : rawId o ∈ seen
    · simp only [h, if_true]
      exact ih seen
    · simp only [h, if_false]
      intro o' ho'
      rcases List.mem_cons.mp ho' with rfl | ho'
      · exact h
      · have := ih (rawId o :: seen) o' ho'
        exact fun hmem => this (List.mem_cons_of_mem _ hmem)

lemma dedupFirst_ids_nodup : ∀ (seen : List String) (l : List RawOpp),
    ((dedupFirst seen l).map rawId).Nodup := by
  intro seen l
  induction l generalizing seen with
  | nil => simp [dedupFirst]
  | cons o rest ih =>
    rw [dedupFirst]
    by_cases h : rawId o ∈ seen
    · simp only [h, if_true]
      exact ih seen
    · simp only [h, if_false, List.map_cons, List.nodup_cons]
      refine ⟨?_, ih (rawId o :: seen)⟩
      intro hmem
      rcases List.mem_map.mp hmem with ⟨o', ho', heq⟩
      have := dedupFirst_not_mem_seen (rawId o :: seen) rest o' ho'
      exact this (heq ▸ List.mem_cons_self _ _)

lemma dedupFirst_find? : ∀ (seen : List String) (l : List RawOpp),
    ∀ o' ∈ dedupFirst seen l,
      l.find? (fun x => rawId x == rawId o') = some o' := by
  intro seen l
  induction l generalizing seen with
  | nil => simp [dedupFirst]
  | cons o rest ih =>
    rw [dedupFirst]
    by_cases h : rawId o ∈ seen
    · simp only [h, if_true]
      intro o' ho'
      have hne : rawId o' ∉ seen := dedupFirst_not_mem_seen seen rest o' ho'
      have hbeq : (rawId o == rawId o') = false := by
        by_contra hb
        have : rawId o = rawId o' := by
          have := eq_of_beq (a := rawId o) (b := rawId o')
          exact this (by simpa using hb)
        exact hne (this ▸ h)
      rw [List.find?_cons_of_neg _ (by simp [hbeq])]
      exact ih seen o' ho'
    · simp only [h, if_false]
      intro o' ho'
      rcases List.mem_cons.mp ho' with rfl | ho'
      · exact List.find?_cons_of_pos _ (by simp)
      · have hne : rawId o' ∉ rawId o :: seen :=
          dedupFirst_not_mem_seen (rawId o :: seen) rest o' ho'
        have hbeq : (rawId o == rawId o') = false := by
          by_contra hb
          have heq : rawId o = rawId o' := eq_of_beq (by simpa using hb)
          exact hne (heq ▸ List.mem_cons_self _ _)
        rw [List.find?_cons_of_neg _ (by simp [hbeq])]
        exact ih (rawId o :: seen) o' ho'

lemma dedupFirst_countP_le_one (l : List RawOpp) (id : String) :
    (dedupFirst [] l).countP (fun o => rawId o == id) ≤ 1 := by
  have hnd := dedupFirst_ids_nodup [] l
  have h1 : (dedupFirst [] l).countP (fun o => rawId o == id)
      = ((dedupFirst [] l).map rawId).countP (· == id) := by
    rw [List.countP_map]; rfl
  rw [h1, ← List.count]
  exact List.nodup_iff_count_le_one.mp hnd id

/-- C8: For every sequence of opportunity search result sets, the
deduplicated output is the first occurrence (in processing order: earlier
set first, earlier position within a set first) of each identifier, each
output dict built from that single first raw dict (no field merging); the
output preserves first-seen order (the kept raws form a sublist of the
concatenated input) and contains at most one record per non-empty notice
identifier. -/
theorem claim_C8_dedup_invariants (sets : List (List RawOpp)) :
    fetch_sam_opportunities sets = (dedupFirst [] sets.flatten).map opp_of_raw
    ∧ (dedupFirst [] sets.flatten).Sublist sets.flatten
    ∧ (∀ id : String, id ≠ "" →
        (dedupFirst [] sets.flatten).countP (fun o => rawId o == id) ≤ 1)
    ∧ (∀ o ∈ dedupFirst [] sets.flatten,
        sets.flatten.find? (fun x => rawId x == rawId o) = some o) :=
  ⟨fetch_sam_eq_dedupFirst sets,
    dedupFirst_sublist [] sets.flatten,
    fun id _ => dedupFirst_countP_le_one sets.flatten id,
    dedupFirst_find? [] sets.flatten⟩

/-- A raw opportunity with id `"ABC123"` as returned by the first (NAICS)
search. -/
def c8raw1 : RawOpp :=
  ⟨some "ABC123", some "From NAICS search", none, none, none, none⟩

/-- The same id `"ABC123"` returned again by the second (keyword) search,
with a different title. -/
def c8raw2 : RawOpp :=
  ⟨some "ABC123", some "From keyword search", none, none, none, none⟩

theorem claim_C8_dedup_invariants_witness :
    (dedupFirst [] ([[c8raw1], [c8raw2]] : List (List RawOpp)).flatten).countP
        (fun o => rawId o == "ABC123") ≤ 1
    ∧ ([[c8raw1], [c8raw2]] : List (List RawOpp)).flatten.find?
        (fun x => rawId x == rawId c8raw1) = some c8raw1 :=
  ⟨(claim_C8_dedup_invariants [[c8raw1], [c8raw2]]).2.2.1 "ABC123" (by decide),
    (claim_C8_dedup_invariants [[c8raw1], [c8raw2]]).2.2.2 c8raw1 (by decide)⟩

/-- A raw opportunity with no `noticeId` key (`opp.get("noticeId", "")`
yields `""`). -/
def c4raw1 : RawOpp := ⟨none, some "Alpha", none, none, none, none⟩

/-- A second, unrelated raw opportunity whose `noticeId` is the empty
string. -/
def c4raw2 : RawOpp := ⟨some "", some "Beta", none, none, none, none⟩

/-- C4 (code bug): the claim — and the spec's stated policy — is that
empty-identifier opportunities are never deduplicated against each other.
The code violates it: `""` is inserted into `seen_ids` like any other id,
so of two distinct empty-identifier opportunities only the first survives.
At the failing input `[[c4raw1, c4raw2]]` the output has a single record
(the claim requires two distinct entries). -/
theorem claim_C4_empty_id_collapsed :
    (fetch_sam_opportunities [[c4raw1, c4raw2]]).length = 1
    ∧ (fetch_sam_opportunities [[c4raw1, c4raw2]]).map Opp.title = ["Alpha"] :=
  ⟨by decide, by decide⟩

/-!
## Main scoring loops and run log

The article loop (Phase 1 of the main script) and the opportunity loop
(Phase 2) each call the analyzer, skip the item when the result is falsy
(`if not analysis: continue` — Python `None` or an empty dict, both
modelled by `none`), otherwise build a record, append it to the
all-scored list, and additionally to the hit list when
`composite >= RELEVANCE_THRESHOLD`.  A truthy analyzer dict is modelled by
`Analysis`, restricted to the keys the code reads, each optional.
-/

/-- An RSS entry as consumed by the loop: `(title, snippet, link)`. -/
structure Entry where
  title : String
  snippet : String
  link : String
deriving DecidableEq

/-- A truthy analyzer result dict, restricted to the accessed keys; a
`none` field models an absent key.  The analyzer returning Python `None`
or a falsy (empty) dict is modelled by `Option.none` at the call site. -/
structure Analysis where
  score : Option ℤ
  summary : Option String
  category : Option String
deriving DecidableEq

/-- The `article_record` dict built in the Phase 1 loop. -/
structure ArticleRecord where
  title : String
  link : String
  score : ℤ
  llm_score : ℤ
  keyword_score : ℚ
  matched_keywords : List MatchRecord
  summary : String
  category : String
  source : String
deriving DecidableEq

/-- Builds `article_record`: `llm_score = analysis.get("score", 0)`,
`summary`/`category` defaulted, composite from the combiner. -/
def mkArticleRecord (tiers : List (String × ℕ)) (feed_name : String)
    (e : Entry) (a : Analysis) : ArticleRecord :=
  let llm_score := a.score.getD 0
  let keyword_results := scan_keywords tiers e.title e.snippet
  { title := e.title,
    link := e.link,
    score := compute_composite_score llm_score keyword_results.keyword_score,
    llm_score := llm_score,
    keyword_score := keyword_results.keyword_score,
    matched_keywords := keyword_results.matched_keywords,
    summary := a.summary.getD "No summary available.",
    category := a.category.getD "Other",
    source := feed_name }

/-- One iteration of the Phase 1 loop over `(feed_name, entry)` pairs,
carrying `(all_scored_articles, todays_top_picks)`. -/
def articleStep (tiers : List (String × ℕ)) (analyze : Entry → Option Analysis)
    (acc : List ArticleRecord × List ArticleRecord) (fe : String × Entry) :
    List ArticleRecord × List ArticleRecord :=
  match analyze fe.2 with
  | none => acc
  | some analysis =>
    let r := mkArticleRecord tiers fe.1 fe.2 analysis
    (acc.1 ++ [r], if RELEVANCE_THRESHOLD ≤ r.score then acc.2 ++ [r] else acc.2)

/-- The Phase 1 article loop: items are processed one at a time in input
order; returns `(all_scored_articles, todays_top_picks)`. -/
def run_articles (tiers : List (String × ℕ)) (analyze : Entry → Option Analysis)
    (items : List (String × Entry)) : List ArticleRecord × List ArticleRecord :=
  items.foldl (articleStep tiers analyze) ([], [])

/-- The `opp_record` dict built in the Phase 2 loop:
`{**opp, **analysis, "score": composite, ...}` — fields of the raw
opportunity, the analyzer keys only when present (no defaulting of
`summary`/`category`), then the explicit score keys. -/
structure OppRecord where
  title : String
  solicitationNumber : String
  naicsCode : String
  type : String
  responseDeadLine : String
  link : String
  summary : Option String
  category : Option String
  score : ℤ
  llm_score : ℤ
  keyword_score : ℚ
  matched_keywords : List MatchRecord
deriving DecidableEq

def mkOppRecord (tiers : List (String × ℕ)) (o : Opp) (a : Analysis) : OppRecord :=
  let llm_score := a.score.getD 0
  let keyword_results := scan_keywords tiers o.title ""
  { title := o.title,
    solicitationNumber := o.solicitationNumber,
    naicsCode := o.naicsCode,
    type := o.type,
    responseDeadLine := o.responseDeadLine,
    link := o.link,
    summary := a.summary,
    category := a.category,
    score := compute_composite_score llm_score keyword_results.keyword_score,
    llm_score := llm_score,
    keyword_score := keyword_results.keyword_score,
    matched_keywords := keyword_results.matched_keywords }

/-- One iteration of the Phase 2 loop, carrying
`(all_scored_opportunities, scored_opportunities)`. -/
def oppStep (tiers : List (String × ℕ)) (analyzeO : Opp → Option Analysis)
    (acc : List OppRecord × List OppRecord) (o : Opp) :
    List OppRecord × List OppRecord :=
  match analyzeO o with
  | none => acc
  | some analysis =>
    let r := mkOppRecord tiers o analysis
    (acc.1 ++ [r], if RELEVANCE_THRESHOLD ≤ r.score then acc.2 ++ [r] else acc.2)

/-- The Phase 2 opportunity loop; returns
`(all_scored_opportunities, scored_opportunities)`. -/
def run_opps (tiers : List (String × ℕ)) (analyzeO : Opp → Option Analysis)
    (opps : List Opp) : List OppRecord × List OppRecord :=
  opps.foldl (oppStep tiers analyzeO) ([], [])

/-- The `summary` block of the run log. -/
structure RunSummary where
  articles_scored : ℕ
  articles_hits : ℕ
  opportunities_scored : ℕ
  opportunities_hits : ℕ
deriving DecidableEq

/-- The run-log document built by `save_run_log` (timestamp and model name
omitted; config snapshot reduced to the scoring-relevant values). -/
structure RunLog where
  relevance_threshold : ℤ
  title_multiplier : ℕ
  summary : RunSummary
  articles : List ArticleRecord
  opportunities : List OppRecord
deriving DecidableEq

/-- Embedding of `save_run_log` (src/main.py): logs every scored item, hit
or miss, plus summary counts. -/
def save_run_log (all_articles : List ArticleRecord)
    (all_opportunities : List OppRecord) (hit_articles : List ArticleRecord)
    (hit_opportunities : List OppRecord) : RunLog :=
  { relevance_threshold := RELEVANCE_THRESHOLD,
    title_multiplier := TITLE_MULTIPLIER,
    summary := ⟨all_articles.length, hit_articles.length,
      all_opportunities.length, hit_opportunities.length⟩,
    articles := all_articles,
    opportunities := all_opportunities }

/-- The records produced by the article loop, as a `filterMap`. -/
def articleRecords (tiers : List (String × ℕ)) (analyze : Entry → Option Analysis)
    (items : List (String × Entry)) : List ArticleRecord :=
  items.filterMap (fun fe => (analyze fe.2).map (mkArticleRecord tiers fe.1 fe.2))

/-- The records produced by the opportunity loop, as a `filterMap`. -/
def oppRecords (tiers : List (String × ℕ)) (analyzeO : Opp → Option Analysis)
    (opps : List Opp) : List OppRecord :=
  opps.filterMap (fun o => (analyzeO o).map (mkOppRecord tiers o))

lemma articles_foldl_eq (tiers : List (String × ℕ)) (analyze : Entry → Option Analysis) :
    ∀ (items : List (String × Entry)) (acc : List ArticleRecord × List ArticleRecord),
      items.foldl (articleStep tiers analyze) acc
        = (acc.1 ++ articleRecords tiers analyze items,
           acc.2 ++ (articleRecords tiers analyze items).filter
              (fun r => decide (RELEVANCE_THRESHOLD ≤ r.score))) := by
  intro items
  induction items with
  | nil => intro acc; simp [articleRecords]
  | cons fe rest ih =>
    intro acc
    rw [List.foldl_cons]
    cases h : analyze fe.2 with
    | none =>
      have hstep : articleStep tiers analyze acc fe = acc := by
        simp [articleStep, h]
      rw [hstep, ih]
      simp [articleRecords, List.filterMap_cons, h]
    | some a =>
      have hstep : articleStep tiers analyze acc fe
          = (acc.1 ++ [mkArticleRecord tiers fe.1 fe.2 a],
             if RELEVANCE_THRESHOLD ≤ (mkArticleRecord tiers fe.1 fe.2 a).score
             then acc.2 ++ [mkArticleRecord tiers fe.1 fe.2 a] else acc.2) := by
        simp [articleStep, h]
      rw [hstep, ih]
      by_cases hp : RELEVANCE_THRESHOLD ≤ (mkArticleRecord tiers fe.1 fe.2 a).score
      · simp [articleRecords, List.filterMap_cons, h, List.filter_cons, hp, if_pos hp]
      · simp [articleRecords, List.filterMap_cons, h, List.filter_cons, hp, if_neg hp]

lemma run_articles_eq (tiers : List (String × ℕ)) (analyze : Entry → Option Analysis)
    (items : List (String × Entry)) :
    run_articles tiers analyze items
      = (articleRecords tiers analyze items,
         (articleRecords tiers analyze items).filter
            (fun r => decide (RELEVANCE_THRESHOLD ≤ r.score))) := by
  rw [run_articles, articles_foldl_eq]
  simp

lemma opps_foldl_eq (tiers : List (String × ℕ)) (analyzeO : Opp → Option Analysis) :
    ∀ (opps : List Opp) (acc : List OppRecord × List OppRecord),
      opps.foldl (oppStep tiers analyzeO) acc
        = (acc.1 ++ oppRecords tiers analyzeO opps,
           acc.2 ++ (oppRecords tiers analyzeO opps).filter
              (fun r => decide (RELEVANCE_THRESHOLD ≤ r.score))) := by
  intro opps
  induction opps with
  | nil => intro acc; simp [oppRecords]
  | cons o rest ih =>
    intro acc
    rw [List.foldl_cons]
    cases h : analyzeO o with
    | none =>
      have hstep : oppStep tiers analyzeO acc o = acc := by
        simp [oppStep, h]
      rw [hstep, ih]
      simp [oppRecords, List.filterMap_cons, h]
    | some a =>
      have hstep : oppStep tiers analyzeO acc o
          = (acc.1 ++ [mkOppRecord tiers o a],
             if RELEVANCE_THRESHOLD ≤ (mkOppRecord tiers o a).score
             then acc.2 ++ [mkOppRecord tiers o a] else acc.2) := by
        simp [oppStep, h]
      rw [hstep, ih]
      by_cases hp : RELEVANCE_THRESHOLD ≤ (mkOppRecord tiers o a).score
      · simp [oppRecords, List.filterMap_cons, h, List.filter_cons, hp, if_pos hp]
      · simp [oppRecords, List.filterMap_cons, h, List.filter_cons, hp, if_neg hp]

lemma run_opps_eq (tiers : List (String × ℕ)) (analyzeO : Opp → Option Analysis)
    (opps : List Opp) :
    run_opps tiers analyzeO opps
      = (oppRecords tiers analyzeO opps,
         (oppRecords tiers analyzeO opps).filter
            (fun r => decide (RELEVANCE_THRESHOLD ≤ r.score))) := by
  rw [run_opps, opps_foldl_eq]
  simp

lemma length_filterMap_eq_countP {α β : Type} (f : α → Option β) (l : List α) :
    (l.filterMap f).length = l.countP (fun x => (f x).isSome) := by
  induction l with
  | nil => simp
  | cons a rest ih =>
    cases h : f a with
    | none => simp [List.filterMap_cons, h, List.countP_cons, ih]
    | some b => simp [List.filterMap_cons, h, List.countP_cons, ih]

/-- C6: if the analyzer returns no result for an item, the item is dropped
entirely: removing it from the input leaves the loop output unchanged, the
all-scored list counts exactly the successfully analyzed items, and the run
log's `articles_scored` equals that count (so a failed item is in neither
the ledger lists nor the digest picks). -/
theorem claim_C6_analyzer_failure_drops (tiers : List (String × ℕ))
    (analyze : Entry → Option Analysis) (pre post : List (String × Entry))
    (fe : String × Entry) (h : analyze fe.2 = none) :
    run_articles tiers analyze (pre ++ fe :: post)
        = run_articles tiers analyze (pre ++ post)
    ∧ (run_articles tiers analyze (pre ++ fe :: post)).1.length
        = (pre ++ post).countP (fun it => (analyze it.2).isSome)
    ∧ ∀ (allO hitO : List OppRecord),
        (save_run_log (run_articles tiers analyze (pre ++ fe :: post)).1 allO
            (run_articles tiers analyze (pre ++ fe :: post)).2
            hitO).summary.articles_scored
          = (pre ++ post).countP (fun it => (analyze it.2).isSome) := by
  have hstep : ∀ acc, articleStep tiers analyze acc fe = acc := by
    intro acc; simp [articleStep, h]
  have h1 : run_articles tiers analyze (pre ++ fe :: post)
      = run_articles tiers analyze (pre ++ post) := by
    unfold run_articles
    rw [List.foldl_append, List.foldl_cons, hstep, ← List.foldl_append]
  have hfun : (fun (it : String × Entry) =>
        ((analyze it.2).map (mkArticleRecord tiers it.1 it.2)).isSome)
      = (fun it => (analyze it.2).isSome) := by
    funext it
    cases h' : analyze it.2 <;> simp [h']
  have h2 : (run_articles tiers analyze (pre ++ post)).1.length
      = (pre ++ post).countP (fun it => (analyze it.2).isSome) := by
    rw [run_articles_eq]
    simpa [articleRecords, length_filterMap_eq_countP] using congrArg ((pre ++ post).countP) hfun
  exact ⟨h1, by rw [h1]; exact h2, fun allO hitO => by rw [h1]; exact h2⟩

def cEntry1 : Entry := ⟨"Navy awards sealift contract", "", "link1"⟩

def cEntry2 : Entry := ⟨"Analyzer times out on this one", "", "link2"⟩

def cEntry3 : Entry := ⟨"Pentagon budget request overview", "", "link3"⟩

/-- An analyzer that fails (returns no result) exactly on `cEntry2`. -/
def cAnalyze : Entry → Option Analysis := fun e =>
  if e.title = cEntry2.title then none else some ⟨some 5, none, none⟩

theorem claim_C6_analyzer_failure_drops_witness :
    (save_run_log
        (run_articles [] cAnalyze
          ([("Feed", cEntry1)] ++ ("Feed", cEntry2) :: [("Feed", cEntry3)])).1 []
        (run_articles [] cAnalyze
          ([("Feed", cEntry1)] ++ ("Feed", cEntry2) :: [("Feed", cEntry3)])).2
        []).summary.articles_scored
      = ([("Feed", cEntry1)] ++ [("Feed", cEntry3)]).countP
          (fun it => (cAnalyze it.2).isSome)
    ∧ ([("Feed", cEntry1)] ++ [("Feed", cEntry3)]).countP
          (fun it => (cAnalyze it.2).isSome) = 2 :=
  ⟨(claim_C6_analyzer_failure_drops [] cAnalyze [("Feed", cEntry1)]
      [("Feed", cEntry3)] ("Feed", cEntry2) (by decide)).2.2 [] [],
    by decide⟩

/-- C7: for every successfully analyzed item, the item is a hit exactly when
its composite score is at least `RELEVANCE_THRESHOLD` (which is 4): the
digest picks are precisely the threshold filter of the all-scored list, in
both loops, and the run record keeps the full lists (hits and misses). -/
theorem claim_C7_threshold_classification (tiers : List (String × ℕ))
    (analyze : Entry → Option Analysis) (items : List (String × Entry))
    (analyzeO : Opp → Option Analysis) (opps : List Opp) :
    (run_articles tiers analyze items).2
        = (run_articles tiers analyze items).1.filter
            (fun r => decide (RELEVANCE_THRESHOLD ≤ r.score))
    ∧ (run_opps tiers analyzeO opps).2
        = (run_opps tiers analyzeO opps).1.filter
            (fun r => decide (RELEVANCE_THRESHOLD ≤ r.score))
    ∧ (save_run_log (run_articles tiers analyze items).1
          (run_opps tiers analyzeO opps).1
          (run_articles tiers analyze items).2
          (run_opps tiers analyzeO opps).2).articles
        = (run_articles tiers analyze items).1
    ∧ (save_run_log (run_articles tiers analyze items).1
          (run_opps tiers analyzeO opps).1
          (run_articles tiers analyze items).2
          (run_opps tiers analyzeO opps).2).opportunities
        = (run_opps tiers analyzeO opps).1
    ∧ RELEVANCE_THRESHOLD = 4 := by
  refine ⟨?_, ?_, rfl, rfl, rfl⟩
  · rw [run_articles_eq]
  · rw [run_opps_eq]

/-- C10 (amended): a truthy analyzer result with missing fields does NOT
drop the item.  In the article loop, `llm_score` defaults to 0, `summary`
to `"No summary available."` and `category` to `"Other"`, the record is in
the ledger list and is classified against the threshold like any other
item.  In the opportunity loop the record is likewise kept, `llm_score`
defaults to 0 and the record is classified against the threshold like any
other item, but a missing `summary` or `category` stays absent (the record
is built by dict merge, without the article loop's defaults). -/
theorem claim_C10_missing_fields (tiers : List (String × ℕ))
    (analyze : Entry → Option Analysis) (items : List (String × Entry))
    (fe : String × Entry) (a : Analysis) (hmem : fe ∈ items)
    (ha : analyze fe.2 = some a) (hs : a.score = none)
    (hsum : a.summary = none) (hcat : a.category = none) :
    mkArticleRecord tiers fe.1 fe.2 a ∈ (run_articles tiers analyze items).1
    ∧ (mkArticleRecord tiers fe.1 fe.2 a).llm_score = 0
    ∧ (mkArticleRecord tiers fe.1 fe.2 a).summary = "No summary available."
    ∧ (mkArticleRecord tiers fe.1 fe.2 a).category = "Other"
    ∧ (mkArticleRecord tiers fe.1 fe.2 a ∈ (run_articles tiers analyze items).2
        ↔ RELEVANCE_THRESHOLD ≤ (mkArticleRecord tiers fe.1 fe.2 a).score)
    ∧ ∀ (analyzeO : Opp → Option Analysis) (opps : List Opp) (o : Opp)
        (a' : Analysis), o ∈ opps → analyzeO o = some a' → a'.score = none →
        a'.summary = none → a'.category = none →
        mkOppRecord tiers o a' ∈ (run_opps tiers analyzeO opps).1
        ∧ (mkOppRecord tiers o a').llm_score = 0
        ∧ (mkOppRecord tiers o a').summary = none
        ∧ (mkOppRecord tiers o a').category = none
        ∧ (mkOppRecord tiers o a' ∈ (run_opps tiers analyzeO opps).2
            ↔ RELEVANCE_THRESHOLD ≤ (mkOppRecord tiers o a').score) := by
  have hall : (run_articles tiers analyze items).1
      = articleRecords tiers analyze items := by rw [run_articles_eq]
  have hmemrec : mkArticleRecord tiers fe.1 fe.2 a
      ∈ articleRecords tiers analyze items := by
    rw [articleRecords, List.mem_filterMap]
    exact ⟨fe, hmem, by rw [ha]; rfl⟩
  refine ⟨by rw [hall]; exact hmemrec, ?_, ?_, ?_, ?_, ?_⟩
  · simp [mkArticleRecord, hs]
  · simp [mkArticleRecord, hsum]
  · simp [mkArticleRecord, hcat]
  · have hpicks : (run_articles tiers analyze items).2
        = (articleRecords tiers analyze items).filter
            (fun r => decide (RELEVANCE_THRESHOLD ≤ r.score)) := by
      rw [run_articles_eq]
    rw [hpicks, List.mem_filter]
    constructor
    · intro hp
      simpa using hp.2
    · intro hp
      exact ⟨hmemrec, by simpa using hp⟩
  · intro analyzeO opps o a' hmo hao hs' hsum' hcat'
    have hmemrecO : mkOppRecord tiers o a' ∈ oppRecords tiers analyzeO opps := by
      rw [oppRecords, List.mem_filterMap]
      exact ⟨o, hmo, by rw [hao]; rfl⟩
    refine ⟨?_, ?_, ?_, ?_, ?_⟩
    · rw [run_opps_eq]
      exact hmemrecO
    · simp [mkOppRecord, hs']
    · simp [mkOppRecord, hsum']
    · simp [mkOppRecord, hcat']
    · have hpicksO : (run_opps tiers analyzeO opps).2
          = (oppRecords tiers analyzeO opps).filter
              (fun r => decide (RELEVANCE_THRESHOLD ≤ r.score)) := by
        rw [run_opps_eq]
      rw [hpicksO, List.mem_filter]
      constructor
      · intro hp
        simpa using hp.2
      · intro hp
        exact ⟨hmemrecO, by simpa using hp⟩

def c10entry : Entry := ⟨"Pentagon roundup", "", "link"⟩

/-- A truthy analyzer dict with none of the three accessed keys. -/
def c10analysisA : Analysis := ⟨none, none, none⟩

def c10analyze : Entry → Option Analysis := fun _ => some c10analysisA

def c10opp : Opp :=
  ⟨"Vessel maintenance", "N/A", "N/A", "N/A", "N/A", "https://sam.gov/opp//view"⟩

def c10analyzeOB : Opp → Option Analysis := fun _ => some c10analysisA

theorem claim_C10_missing_fields_witness :
    (mkArticleRecord [] "Feed" c10entry c10analysisA).llm_score = 0
    ∧ (mkArticleRecord [] "Feed" c10entry c10analysisA).summary
        = "No summary available."
    ∧ (mkArticleRecord [] "Feed" c10entry c10analysisA).category = "Other"
    ∧ (mkOppRecord [] c10opp c10analysisA).summary = none
    ∧ (mkOppRecord [] c10opp c10analysisA).category = none :=
  let h := claim_C10_missing_fields [] c10analyze [("Feed", c10entry)]
    ("Feed", c10entry) c10analysisA (by decide) rfl rfl rfl rfl
  let hO := h.2.2.2.2.2 c10analyzeOB [c10opp] c10opp c10analysisA (by decide)
    rfl rfl rfl rfl
  ⟨h.2.1, h.2.2.1, h.2.2.2.1, hO.2.2.1, hO.2.2.2.1⟩

/-- An analyzer result that is truthy and lacks only the `summary` key. -/
def c10analysisC : Analysis := ⟨some 5, none, some "Maritime"⟩

def c10analyzeOC : Opp → Option Analysis := fun _ => some c10analysisC

/-- C10 counterexample to the claim as stated: in the opportunity loop, an
analyzer result lacking `"summary"` yields a record that is kept (the item
is scored, not dropped) but whose `summary` is absent — not defaulted to
`"No summary available."` as the claim asserts for all items. -/
theorem claim_C10_opp_summary_not_defaulted :
    ((run_opps [] c10analyzeOC [c10opp]).1.map OppRecord.summary) = [none]
    ∧ (none : Option String) ≠ some "No summary available." :=
  ⟨by decide, by decide⟩
